import Mathlib

/-!
Verification of the risk-calculation and limit-monitoring engine of the
Quant_AgsDashboard repository: a shallow embedding in Lean 4 of
`src/risk_calculator.py`, `src/portfolio_manager.py` and
`src/risk_monitor.py`, followed by theorems settling the frozen claims.

Modelling conventions:
* Python floats are modelled by `ℚ`; a float that may be NaN is modelled by
  `PyFloat` (`val x` an ordinary number, `nan` the IEEE NaN that numpy/scipy
  produce, e.g. `np.mean` of an empty array or `norm.ppf` with zero scale).
* A Python `None` result is `Option.none`.  The guards `returns is None or
  len(returns) == 0` are modelled over `List ℚ` by the length test; a `None`
  argument and an empty argument lead to the same `none` result in the
  source, so the empty list stands for both.
* `np.percentile` with its default linear interpolation is modelled by
  `np_percentile`; `np.random.normal(mu, sigma, 10000)` is modelled by an
  abstract list `noise` of standard-normal draws, the draw being
  `mu + sigma * t`; scipy's `stats.norm.ppf(q, mu, sigma)` is
  `mu + sigma * Φ⁻¹(q)` for `sigma > 0` (with `Φ⁻¹` an abstract parameter
  `z`) and NaN for `sigma ≤ 0` (scipy's `scale > 0` validity condition).
* `np.sqrt` on `ℚ` is modelled by `ratSqrt`, which is exact on the squares
  of rationals — in particular `ratSqrt 0 = 0`, the only square-root value
  the claims depend on.
* Python dicts are association lists (`alookup` / `aset`), keeping the
  source's insertion-order iteration; pandas Series/DataFrame cells that may
  be NaN are `Option ℚ`, a DataFrame is a `Frame` (a shared date index plus
  one column of cells per commodity).
-/

/-- Lookup in an association list modelling a Python dict
(`d[k]` / `k in d` / `d.get(k, default)`). -/
def alookup {α : Type} : List (String × α) → String → Option α
  | [], _ => none
  | (k, v) :: rest, key => if k = key then some v else alookup rest key

/-- Overwrite the value at an existing key of an association list, keeping
the key's position (Python dict assignment to a present key). -/
def aset {α : Type} : List (String × α) → String → α → List (String × α)
  | [], _, _ => []
  | (k, v) :: rest, key, w => if k = key then (key, w) :: rest else (k, v) :: aset rest key w

/-- A Python float that may be NaN. -/
inductive PyFloat where
  | val (x : ℚ)
  | nan
deriving DecidableEq

/-- `abs` on a Python float: `abs(nan) = nan`. -/
def pfAbs : PyFloat → PyFloat
  | .val x => .val |x|
  | .nan => .nan

/-- Division of a Python float by a nonzero rational constant. -/
def pfDivC : PyFloat → ℚ → PyFloat
  | .val x, c => .val (x / c)
  | .nan, _ => .nan

/-- The comparison `a > b` on a Python float: every comparison with NaN is
false. -/
def pfGtQ : PyFloat → ℚ → Bool
  | .val x, b => x > b
  | .nan, _ => false

/-- `np.mean` of a list: the sum divided by the length (NaN on an empty
array, see `np_mean_pf`). -/
def np_mean (l : List ℚ) : ℚ := l.sum / l.length

/-- `np.mean` with numpy's empty-array behaviour: NaN on `[]`. -/
def np_mean_pf (l : List ℚ) : PyFloat :=
  if l.length = 0 then .nan else .val (np_mean l)

/-- Population variance, `mean((x - mean)²)` — the square of `np.std`. -/
def np_var (l : List ℚ) : ℚ :=
  ((l.map (fun x => (x - np_mean l) ^ 2)).sum) / l.length

/-- Square root on `ℚ`: exact whenever the argument is the square of a
rational (`ratSqrt 0 = 0`, `ratSqrt (9/4) = 3/2`, …); on non-squares it is
the rational built from the integer square roots of numerator and
denominator, an approximation no claim depends on. -/
def ratSqrt (x : ℚ) : ℚ :=
  if x = 0 then 0 else (Nat.sqrt x.num.toNat : ℚ) / (Nat.sqrt x.den : ℚ)

/-- `np.std` (population standard deviation, `ddof = 0`). -/
def np_std (l : List ℚ) : ℚ := ratSqrt (np_var l)

/-- The linear interpolation at fractional index `h` into the sorted data
`s` of length `n`: `s[i] + (h - i) * (s[min(i+1, n-1)] - s[i])` with
`i = floor h`. -/
def pct_interp (s : List ℚ) (n : ℕ) (h : ℚ) : ℚ :=
  let i : ℕ := (Int.floor h).toNat
  let g : ℚ := h - (i : ℚ)
  s.getD i 0 + g * (s.getD (min (i + 1) (n - 1)) 0 - s.getD i 0)

/-- `np.percentile(l, q)` with the default linear interpolation: the value
interpolated at fractional index `h = q/100 * (n-1)` into the sorted data. -/
def np_percentile (l : List ℚ) (q : ℚ) : ℚ :=
  pct_interp (l.insertionSort (· ≤ ·)) l.length (q / 100 * ((l.length : ℚ) - 1))

/-- scipy's `stats.norm.ppf(q, mu, sigma)`: `mu + sigma * Φ⁻¹(q)` when the
scale is valid (`sigma > 0`), NaN otherwise.  The standard normal quantile
`Φ⁻¹` is the abstract parameter `z`. -/
def scipy_norm_ppf (z : ℚ → ℚ) (q mu sigma : ℚ) : PyFloat :=
  if 0 < sigma then .val (mu + sigma * z q) else .nan

/-- `RiskCalculator.calculate_var(returns, confidence_level, method)`.
`z` models the standard normal quantile used by the parametric branch and
`noise` the 10000 standard-normal draws of the Monte-Carlo branch
(`np.random.normal(mu, sigma, 10000)` drawing `mu + sigma * t`).  A method
string other than the three recognised ones falls through every branch and
returns `None`. -/
def calculate_var (z : ℚ → ℚ) (noise : List ℚ) (returns : List ℚ)
    (confidence_level : ℚ) (method : String) : Option PyFloat :=
  if returns.length = 0 then none
  else if method = "historical" then
    some (.val (np_percentile returns ((1 - confidence_level) * 100)))
  else if method = "parametric" then
    let mu := np_mean returns
    let sigma := np_std returns
    some (scipy_norm_ppf z (1 - confidence_level) mu sigma)
  else if method = "monte_carlo" then
    let mu := np_mean returns
    let sigma := np_std returns
    let simulated_returns := noise.map (fun t => mu + sigma * t)
    some (.val (np_percentile simulated_returns ((1 - confidence_level) * 100)))
  else none

/-- `RiskCalculator.calculate_expected_shortfall(returns, confidence_level)`:
the source computes `var = self.calculate_var(returns, confidence_level,
'historical')` — on the already-checked non-empty series this is exactly the
historical percentile (see `calculate_var_historical`) — and returns
`np.mean(returns[returns <= var])`. -/
def calculate_expected_shortfall (returns : List ℚ) (confidence_level : ℚ) :
    Option PyFloat :=
  if returns.length = 0 then none
  else
    let var := np_percentile returns ((1 - confidence_level) * 100)
    some (np_mean_pf (returns.filter (fun r => r ≤ var)))

/-- The dict returned by `RiskCalculator.stress_test`. -/
structure StressResult where
  scenario : String
  stressed_var_95 : ℚ
  stressed_var_99 : ℚ
  volatility_increase : ℚ
deriving DecidableEq

/-- `RiskCalculator.stress_test(returns, scenario_type)`: the fixed scenario
table, the silent fallback to `"2008_crisis"` on an unknown id, the shocked
series `returns + shock`, and its 5th/1st percentiles.  The source also
computes `stressed_volatility = np.std(returns) * multiplier`, which it never
uses (kept here under the same name). -/
def stress_test (returns : List ℚ) (scenario_type : String) : Option StressResult :=
  if returns.length = 0 then none
  else
    let scenarios : List (String × ℚ × ℚ) :=
      [("2008_crisis", (-0.15, 2.5)), ("covid_2020", (-0.25, 3.0)),
       ("ukraine_conflict", (-0.12, 2.0))]
    let scenario_type := if (alookup scenarios scenario_type).isSome then scenario_type
      else "2008_crisis"
    let scenario := (alookup scenarios scenario_type).getD (0, 0)
    let stressed_returns := returns.map (· + scenario.1)
    let _stressed_volatility := np_std returns * scenario.2
    some { scenario := scenario_type,
           stressed_var_95 := np_percentile stressed_returns 5,
           stressed_var_99 := np_percentile stressed_returns 1,
           volatility_increase := scenario.2 }

/-- One entry of `PortfolioManager.positions`: quantity, weighted-average
cost, and the market value last computed by `update_market_values`
(0 until the first price refresh). -/
structure Position where
  quantity : ℚ
  avg_price : ℚ
  market_value : ℚ
deriving DecidableEq

/-- One record of `PortfolioManager.trade_history`. -/
structure Trade where
  date : ℕ
  commodity : String
  quantity : ℚ
  price : ℚ
  trade_value : ℚ
deriving DecidableEq

/-- The mutable state of `PortfolioManager` (`__init__`). -/
structure PortfolioManager where
  positions : List (String × Position)
  market_values : List (String × ℚ)
  trade_history : List Trade

/-- `PortfolioManager.add_position(commodity, quantity, price, trade_date)`:
create the `{0, 0, 0}` entry if the commodity is new, replace quantity and
average price by the weighted-average update (average price resets to 0 when
the new quantity is exactly 0), and append the trade record
unconditionally. -/
def add_position (pm : PortfolioManager) (commodity : String) (quantity price : ℚ)
    (trade_date : ℕ) : PortfolioManager :=
  let ps := match alookup pm.positions commodity with
    | some _ => pm.positions
    | none => pm.positions ++ [(commodity, ⟨0, 0, 0⟩)]
  let old : Position := (alookup ps commodity).getD ⟨0, 0, 0⟩
  let new_quantity := old.quantity + quantity
  let new_avg_price : ℚ :=
    if new_quantity ≠ 0 then ((old.quantity * old.avg_price) + (quantity * price)) / new_quantity
    else 0
  { positions := aset ps commodity
      { old with quantity := new_quantity, avg_price := new_avg_price },
    market_values := pm.market_values,
    trade_history := pm.trade_history ++
      [{ date := trade_date, commodity := commodity, quantity := quantity,
         price := price, trade_value := quantity * price }] }

/-- One breach record emitted by the limit checks.  `current` is a Python
float (for VaR breaches it is derived from values that can in principle be
NaN), `severity` is `"HIGH"` or `"MEDIUM"`. -/
structure Breach where
  type : String
  current : PyFloat
  limit : ℚ
  severity : String
deriving DecidableEq

/-- The configuration the monitor reads (`config.Config`): the two VaR
limits, the per-commodity position limits, and the stress scenario ids. -/
structure RMConfig where
  VAR_LIMITS_portfolio : ℚ
  VAR_LIMITS_individual : ℚ
  POSITION_LIMITS : List (String × ℚ)
  STRESS_TEST_SCENARIOS : List String

/-- `RiskMonitor.check_var_limits(portfolio_var, individual_vars)`: a
`HIGH` portfolio breach when `abs(portfolio_var)` exceeds the portfolio
limit, then one `MEDIUM` breach per commodity whose `abs(var)` exceeds the
individual limit, in the dict's iteration order. -/
def check_var_limits (cfg : RMConfig) (portfolio_var : PyFloat)
    (individual_vars : List (String × PyFloat)) : List Breach :=
  (if pfGtQ (pfAbs portfolio_var) cfg.VAR_LIMITS_portfolio then
    [{ type := "Portfolio VaR Breach", current := pfAbs portfolio_var,
       limit := cfg.VAR_LIMITS_portfolio, severity := "HIGH" }]
   else []) ++
  individual_vars.filterMap (fun cv =>
    if pfGtQ (pfAbs cv.2) cfg.VAR_LIMITS_individual then
      some { type := cv.1 ++ " VaR Breach", current := pfAbs cv.2,
             limit := cfg.VAR_LIMITS_individual, severity := "MEDIUM" }
    else none)

/-- The breach built for one commodity by `check_position_limits`. -/
def position_limit_breach (limit : ℚ) (commodity : String) (p : Position) : Breach :=
  { type := commodity ++ " Position Limit Breach",
    current := .val (|p.market_value| / 1000000),
    limit := limit, severity := "HIGH" }

/-- `RiskMonitor.check_position_limits(positions)`: for each commodity, a
`HIGH` breach when its absolute market value converted to millions exceeds
`config.POSITION_LIMITS.get(commodity, 0)`. -/
def check_position_limits (cfg : RMConfig) (positions : List (String × Position)) :
    List Breach :=
  positions.filterMap (fun cp =>
    let market_value := |cp.2.market_value| / 1000000
    let limit := (alookup cfg.POSITION_LIMITS cp.1).getD 0
    if market_value > limit then some (position_limit_breach limit cp.1 cp.2)
    else none)

/-- A pandas DataFrame of daily returns: a shared date index and one column
of cells per commodity; a `none` cell is a NaN. -/
structure Frame where
  index : List ℕ
  cols : List (String × List (Option ℚ))

/-- `DataFrame.empty`: no rows or no columns. -/
def dfEmpty (f : Frame) : Bool := f.index.isEmpty || f.cols.isEmpty

/-- `Series.dropna()`. -/
def dropna (s : List (Option ℚ)) : List ℚ := s.filterMap id

/-- Pandas `portfolio_returns += returns_data[commodity] * weight`: the
entrywise sum over the shared index, where a NaN in either operand makes the
result entry NaN. -/
def seriesAddWeighted (acc : List (Option ℚ)) (col : List (Option ℚ)) (w : ℚ) :
    List (Option ℚ) :=
  List.zipWith (fun a c =>
    match a, c with
    | some a, some c => some (a + c * w)
    | _, _ => none) acc col

/-- The loop body of the aggregation below: skip a commodity absent from
the weights mapping or with weight ≤ 0 (`if commodity in weights and
weights[commodity] > 0`), otherwise add its column times its weight. -/
def wprStep (weights : List (String × ℚ)) (acc : List (Option ℚ))
    (c : String × List (Option ℚ)) : List (Option ℚ) :=
  match alookup weights c.1 with
  | some w => if w > 0 then seriesAddWeighted acc c.2 w else acc
  | none => acc

/-- The weighted portfolio-return aggregation of
`RiskMonitor.generate_risk_report` (spec §4.2, ReturnAggregator): starting
from the all-zero series on the frame's index, add `column * weight` for
every commodity that appears in the weights mapping with weight > 0. -/
def weighted_portfolio_returns (weights : List (String × ℚ)) (f : Frame) :
    List (Option ℚ) :=
  f.cols.foldl (wprStep weights) (f.index.map (fun _ => some (0 : ℚ)))

/-- Whether a frame column takes part in the aggregation: its commodity is
in the weights mapping with weight > 0. -/
def colContributes (weights : List (String × ℚ)) (c : String × List (Option ℚ)) : Bool :=
  match alookup weights c.1 with
  | some w => w > 0
  | none => false

/-- `abs(pct * value) if pct else 0`: the Python conditional expression used
for every dollar conversion in the report.  `None` and `0.0` are falsy and
give 0; NaN is truthy and propagates. -/
def dollarize (pct : Option PyFloat) (value : ℚ) : PyFloat :=
  match pct with
  | some (.val x) => if x ≠ 0 then .val |x * value| else .val 0
  | some .nan => .nan
  | none => .val 0

/-- The `portfolio_metrics` section of the report. -/
structure PortfolioMetrics where
  var_95 : Option PyFloat
  var_99 : Option PyFloat
  var_95_dollar : PyFloat
  var_99_dollar : PyFloat
  expected_shortfall_95 : Option PyFloat
  expected_shortfall_99 : Option PyFloat
  expected_shortfall_95_dollar : PyFloat
  expected_shortfall_99_dollar : PyFloat
  volatility : ℚ

/-- One commodity's entry in the `individual_metrics` section. -/
structure IndividualMetrics where
  var_95 : Option PyFloat
  var_99 : Option PyFloat
  var_95_dollar : PyFloat
  var_99_dollar : PyFloat
  expected_shortfall_95 : Option PyFloat
  expected_shortfall_95_dollar : PyFloat
  volatility : ℚ
  position_value : ℚ

/-- A stress result after the report added the two dollar fields. -/
structure StressResultDollar where
  base : StressResult
  stressed_var_95_dollar : ℚ
  stressed_var_99_dollar : ℚ

/-- The report dict built by `generate_risk_report`.  An empty
`portfolio_metrics` dict is `none`. -/
structure Report where
  timestamp : ℕ
  portfolio_metrics : Option PortfolioMetrics
  individual_metrics : List (String × IndividualMetrics)
  stress_test_results : List (String × StressResultDollar)
  limit_breaches : List Breach
  recommendations : List String

/-- The `portfolio_summary` argument of `generate_risk_report` (the source's
dict also carries `positions` and `num_positions`, which the report never
reads). -/
structure PortfolioSummary where
  total_value : ℚ
  weights : List (String × ℚ)

/-- `RiskMonitor.generate_risk_report(portfolio_data, returns_data,
positions, portfolio_summary)`.  The source's `portfolio_data` argument is
never read and is omitted here; `now` stands for `datetime.now()`; `z` and
`noise` are threaded to `calculate_var` (all report calls use the default
`'historical'` method, which ignores both).  A `none` `returns_data` is a
Python `None` frame. -/
def generate_risk_report (z : ℚ → ℚ) (noise : List ℚ) (cfg : RMConfig) (now : ℕ)
    (returns_data : Option Frame) (positions : List (String × Position))
    (portfolio_summary : PortfolioSummary) : Report :=
  let report : Report :=
    { timestamp := now, portfolio_metrics := none, individual_metrics := [],
      stress_test_results := [], limit_breaches := [], recommendations := [] }
  match returns_data with
  | none => report
  | some f =>
    if dfEmpty f || portfolio_summary.total_value = 0 then report
    else
      let weights := portfolio_summary.weights
      let portfolio_returns := weighted_portfolio_returns weights f
      let total_value := portfolio_summary.total_value
      let prd := dropna portfolio_returns
      let portfolio_metrics : Option PortfolioMetrics :=
        if prd.length > 0 then
          let var_95_pct := calculate_var z noise prd (95/100) "historical"
          let var_99_pct := calculate_var z noise prd (99/100) "historical"
          let es_95_pct := calculate_expected_shortfall prd (95/100)
          let es_99_pct := calculate_expected_shortfall prd (99/100)
          some { var_95 := var_95_pct, var_99 := var_99_pct,
                 var_95_dollar := dollarize var_95_pct total_value,
                 var_99_dollar := dollarize var_99_pct total_value,
                 expected_shortfall_95 := es_95_pct,
                 expected_shortfall_99 := es_99_pct,
                 expected_shortfall_95_dollar := dollarize es_95_pct total_value,
                 expected_shortfall_99_dollar := dollarize es_99_pct total_value,
                 volatility := if prd.length > 0 then np_std prd * ratSqrt 252 else 0 }
        else none
      let individual_metrics : List (String × IndividualMetrics) :=
        f.cols.filterMap (fun c =>
          match alookup positions c.1 with
          | some p =>
            if p.quantity ≠ 0 then
              let commodity_returns := dropna c.2
              let position_value := |p.market_value|
              if commodity_returns.length > 0 ∧ position_value > 0 then
                let var_95_pct := calculate_var z noise commodity_returns (95/100) "historical"
                let var_99_pct := calculate_var z noise commodity_returns (99/100) "historical"
                let es_95_pct := calculate_expected_shortfall commodity_returns (95/100)
                some (c.1,
                  { var_95 := var_95_pct, var_99 := var_99_pct,
                    var_95_dollar := dollarize var_95_pct position_value,
                    var_99_dollar := dollarize var_99_pct position_value,
                    expected_shortfall_95 := es_95_pct,
                    expected_shortfall_95_dollar := dollarize es_95_pct position_value,
                    volatility := np_std commodity_returns * ratSqrt 252,
                    position_value := position_value })
              else none
            else none
          | none => none)
      let individual_vars : List (String × PyFloat) :=
        individual_metrics.map (fun cm => (cm.1, cm.2.var_95_dollar))
      let stress_results : List (String × StressResultDollar) :=
        cfg.STRESS_TEST_SCENARIOS.filterMap (fun scenario =>
          if prd.length > 0 then
            match stress_test prd scenario with
            | some stress_result =>
              some (scenario,
                { base := stress_result,
                  stressed_var_95_dollar := |stress_result.stressed_var_95 * total_value|,
                  stressed_var_99_dollar := |stress_result.stressed_var_99 * total_value| })
            | none => none
          else none)
      let var_breaches : List Breach :=
        match portfolio_metrics with
        | some pm =>
          check_var_limits cfg (pfDivC pm.var_95_dollar 1000000)
            (individual_vars.map (fun kv => (kv.1, pfDivC kv.2 1000000)))
        | none => []
      let limit_breaches := var_breaches ++ check_position_limits cfg positions
      let recommendations : List String :=
        (if limit_breaches ≠ [] then
          ["Immediate attention required due to limit breaches"] else []) ++
        (if limit_breaches.length > 3 then ["Consider portfolio rebalancing"] else []) ++
        (if total_value > 0 then
          individual_metrics.filterMap (fun cm =>
            if pfGtQ (pfDivC cm.2.var_95_dollar 1000000) 5 then
              some ("High risk concentration in " ++ cm.1)
            else none)
         else [])
      { timestamp := now, portfolio_metrics := portfolio_metrics,
        individual_metrics := individual_metrics,
        stress_test_results := stress_results,
        limit_breaches := limit_breaches,
        recommendations := recommendations }

/-! ### Sorting and interpolation toolkit -/

lemma insertionSort_sorted (l : List ℚ) : (l.insertionSort (· ≤ ·)).Sorted (· ≤ ·) :=
  List.sorted_insertionSort _ l

lemma insertionSort_len (l : List ℚ) : (l.insertionSort (· ≤ ·)).length = l.length :=
  List.length_insertionSort _ l

lemma sorted_getD_mono {s : List ℚ} (hs : s.Sorted (· ≤ ·)) {i j : ℕ}
    (hij : i ≤ j) (hj : j < s.length) : s.getD i 0 ≤ s.getD j 0 := by
  rcases lt_or_eq_of_le hij with hlt | heq
  · have hi : i < s.length := lt_of_le_of_lt hij hj
    rw [List.getD_eq_getElem s 0 hi, List.getD_eq_getElem s 0 hj]
    have := List.pairwise_iff_get.mp hs ⟨i, hi⟩ ⟨j, hj⟩ hlt
    simpa using this
  · subst heq; exact le_rfl

lemma pct_h_bounds {n : ℕ} {q : ℚ} (hn : 0 < n) (h0 : 0 ≤ q) (h100 : q ≤ 100) :
    0 ≤ q / 100 * ((n : ℚ) - 1) ∧ q / 100 * ((n : ℚ) - 1) ≤ (n : ℚ) - 1 := by
  have hn1 : (1 : ℚ) ≤ (n : ℚ) := by exact_mod_cast hn
  have hq0 : 0 ≤ q / 100 := div_nonneg h0 (by norm_num)
  have hq1 : q / 100 ≤ 1 := by
    rw [div_le_one (by norm_num : (0:ℚ) < 100)]; exact h100
  constructor
  · exact mul_nonneg hq0 (by linarith)
  · nlinarith

lemma pct_idx_facts {n : ℕ} {h : ℚ} (hn : 0 < n) (h0 : 0 ≤ h)
    (hle : h ≤ (n : ℚ) - 1) :
    (((Int.floor h).toNat : ℚ) ≤ h) ∧ (h ≤ ((Int.floor h).toNat : ℚ) + 1) ∧
    ((Int.floor h).toNat ≤ n - 1) := by
  have hfl0 : 0 ≤ Int.floor h := Int.floor_nonneg.mpr h0
  have hcast : ((Int.floor h).toNat : ℚ) = ((Int.floor h : ℤ) : ℚ) := by
    exact_mod_cast congrArg (fun z : ℤ => (z : ℚ)) (Int.toNat_of_nonneg hfl0)
  have h1 : ((Int.floor h).toNat : ℚ) ≤ h := by rw [hcast]; exact Int.floor_le h
  have h2 : h ≤ ((Int.floor h).toNat : ℚ) + 1 := by
    rw [hcast]; linarith [le_of_lt (Int.lt_floor_add_one h)]
  refine ⟨h1, h2, ?_⟩
  have hfl_le : Int.floor h ≤ (n : ℤ) - 1 := by
    have : ((n : ℚ) - 1) = (((n : ℤ) - 1 : ℤ) : ℚ) := by push_cast; ring
    have := Int.floor_le_floor (le_trans (le_refl h) hle)
    rw [‹((n : ℚ) - 1) = (((n : ℤ) - 1 : ℤ) : ℚ)›, Int.floor_intCast] at this
    exact this
  have := Int.toNat_le_toNat hfl_le
  omega

lemma pct_interp_between {s : List ℚ} {n : ℕ} {h : ℚ} (hs : s.Sorted (· ≤ ·))
    (hlen : s.length = n) (hn : 0 < n) (h0 : 0 ≤ h) (hle : h ≤ (n : ℚ) - 1) :
    s.getD (Int.floor h).toNat 0 ≤ pct_interp s n h ∧
    pct_interp s n h ≤ s.getD (min ((Int.floor h).toNat + 1) (n - 1)) 0 := by
  obtain ⟨hi_le, hle_i1, hi_n⟩ := pct_idx_facts hn h0 hle
  have hij : (Int.floor h).toNat ≤ min ((Int.floor h).toNat + 1) (n - 1) :=
    le_min (Nat.le_succ _) hi_n
  have hjlen : min ((Int.floor h).toNat + 1) (n - 1) < s.length := by
    rw [hlen]; exact lt_of_le_of_lt (min_le_right _ _) (Nat.sub_lt hn one_pos)
  have hAB : s.getD (Int.floor h).toNat 0 ≤
      s.getD (min ((Int.floor h).toNat + 1) (n - 1)) 0 :=
    sorted_getD_mono hs hij hjlen
  have he : pct_interp s n h = s.getD (Int.floor h).toNat 0 +
      (h - ((Int.floor h).toNat : ℚ)) *
      (s.getD (min ((Int.floor h).toNat + 1) (n - 1)) 0 - s.getD (Int.floor h).toNat 0) := rfl
  constructor
  · rw [he]
    nlinarith [mul_nonneg (by linarith : (0:ℚ) ≤ h - ((Int.floor h).toNat : ℚ))
      (by linarith : (0:ℚ) ≤ s.getD (min ((Int.floor h).toNat + 1) (n - 1)) 0 -
        s.getD (Int.floor h).toNat 0)]
  · rw [he]
    nlinarith [mul_nonneg (by linarith : (0:ℚ) ≤ 1 - (h - ((Int.floor h).toNat : ℚ)))
      (by linarith : (0:ℚ) ≤ s.getD (min ((Int.floor h).toNat + 1) (n - 1)) 0 -
        s.getD (Int.floor h).toNat 0)]

lemma pct_interp_mono {s : List ℚ} {n : ℕ} {h₁ h₂ : ℚ} (hs : s.Sorted (· ≤ ·))
    (hlen : s.length = n) (hn : 0 < n) (h0 : 0 ≤ h₁) (h12 : h₁ ≤ h₂)
    (hle : h₂ ≤ (n : ℚ) - 1) : pct_interp s n h₁ ≤ pct_interp s n h₂ := by
  have h0' : 0 ≤ h₂ := le_trans h0 h12
  have hle' : h₁ ≤ (n : ℚ) - 1 := le_trans h12 hle
  obtain ⟨hi1_le, hle1_i1, hi1_n⟩ := pct_idx_facts hn h0 hle'
  obtain ⟨hi2_le, hle2_i1, hi2_n⟩ := pct_idx_facts hn h0' hle
  have hi12 : (Int.floor h₁).toNat ≤ (Int.floor h₂).toNat :=
    Int.toNat_le_toNat (Int.floor_le_floor h12)
  rcases lt_or_eq_of_le hi12 with hlt | heq
  · -- the floors differ: chain through the sorted data between the two cells
    have hB1 := (pct_interp_between hs hlen hn h0 hle').2
    have hA2 := (pct_interp_between hs hlen hn h0' hle).1
    refine le_trans hB1 (le_trans ?_ hA2)
    apply sorted_getD_mono hs
    · exact le_trans (min_le_left _ _) hlt
    · rw [hlen]; exact lt_of_le_of_lt hi2_n (Nat.sub_lt hn one_pos)
  · -- same floor: the two values interpolate along the same segment
    have he1 : pct_interp s n h₁ = s.getD (Int.floor h₁).toNat 0 +
        (h₁ - ((Int.floor h₁).toNat : ℚ)) *
        (s.getD (min ((Int.floor h₁).toNat + 1) (n - 1)) 0 -
          s.getD (Int.floor h₁).toNat 0) := rfl
    have he2 : pct_interp s n h₂ = s.getD (Int.floor h₂).toNat 0 +
        (h₂ - ((Int.floor h₂).toNat : ℚ)) *
        (s.getD (min ((Int.floor h₂).toNat + 1) (n - 1)) 0 -
          s.getD (Int.floor h₂).toNat 0) := rfl
    rw [he1, he2, ← heq]
    have hij : (Int.floor h₁).toNat ≤ min ((Int.floor h₁).toNat + 1) (n - 1) :=
      le_min (Nat.le_succ _) hi1_n
    have hjlen : min ((Int.floor h₁).toNat + 1) (n - 1) < s.length := by
      rw [hlen]; exact lt_of_le_of_lt (min_le_right _ _) (Nat.sub_lt hn one_pos)
    have hAB : s.getD (Int.floor h₁).toNat 0 ≤
        s.getD (min ((Int.floor h₁).toNat + 1) (n - 1)) 0 :=
      sorted_getD_mono hs hij hjlen
    have hg12 : h₁ - ((Int.floor h₁).toNat : ℚ) ≤ h₂ - ((Int.floor h₁).toNat : ℚ) := by
      linarith
    nlinarith [mul_le_mul_of_nonneg_right hg12 (by linarith :
      (0:ℚ) ≤ s.getD (min ((Int.floor h₁).toNat + 1) (n - 1)) 0 -
        s.getD (Int.floor h₁).toNat 0)]

lemma np_percentile_mono {l : List ℚ} {q₁ q₂ : ℚ} (hl : l ≠ []) (h0 : 0 ≤ q₁)
    (h12 : q₁ ≤ q₂) (h100 : q₂ ≤ 100) : np_percentile l q₁ ≤ np_percentile l q₂ := by
  have hn : 0 < l.length := List.length_pos.mpr hl
  have hn1 : (1 : ℚ) ≤ (l.length : ℚ) := by exact_mod_cast hn
  have hmul : q₁ / 100 * ((l.length : ℚ) - 1) ≤ q₂ / 100 * ((l.length : ℚ) - 1) := by
    have : q₁ / 100 ≤ q₂ / 100 := by
      rw [div_le_div_iff (by norm_num) (by norm_num : (0:ℚ) < 100)]; nlinarith
    exact mul_le_mul_of_nonneg_right this (by linarith)
  exact pct_interp_mono (insertionSort_sorted l) (insertionSort_len l) hn
    (pct_h_bounds hn h0 (le_trans h12 h100)).1 hmul
    (pct_h_bounds hn (le_trans h0 h12) h100).2

lemma sorted_head_mem {l : List ℚ} (hl : l ≠ []) :
    (l.insertionSort (· ≤ ·)).getD 0 0 ∈ l := by
  have hlen : 0 < (l.insertionSort (· ≤ ·)).length := by
    rw [insertionSort_len]; exact List.length_pos.mpr hl
  rw [List.getD_eq_getElem _ 0 hlen]
  exact (List.mem_insertionSort _).mp (List.getElem_mem hlen)

lemma sorted_head_le_np_percentile {l : List ℚ} {q : ℚ} (hl : l ≠ []) (h0 : 0 ≤ q)
    (h100 : q ≤ 100) : (l.insertionSort (· ≤ ·)).getD 0 0 ≤ np_percentile l q := by
  have hn : 0 < l.length := List.length_pos.mpr hl
  obtain ⟨hh0, hhle⟩ := pct_h_bounds hn h0 h100
  refine le_trans ?_ (pct_interp_between (insertionSort_sorted l) (insertionSort_len l)
    hn hh0 hhle).1
  apply sorted_getD_mono (insertionSort_sorted l) (Nat.zero_le _)
  rw [insertionSort_len]
  exact lt_of_le_of_lt (pct_idx_facts hn hh0 hhle).2.2 (Nat.sub_lt hn one_pos)

lemma np_mean_le_of_forall_le {l : List ℚ} (hl : l ≠ []) {v : ℚ}
    (hv : ∀ x ∈ l, x ≤ v) : np_mean l ≤ v := by
  have hn : 0 < l.length := List.length_pos.mpr hl
  have hnq : (0 : ℚ) < (l.length : ℚ) := by exact_mod_cast hn
  have hsum : l.sum ≤ (l.length : ℚ) * v := by
    have := List.sum_le_card_nsmul l v hv
    simpa [nsmul_eq_mul] using this
  rw [np_mean, div_le_iff hnq]
  linarith

/-! ### Association-list lemmas and the `add_position` update -/

lemma alookup_append_right {α : Type} {ps : List (String × α)} {k : String}
    (h : alookup ps k = none) (qs : List (String × α)) :
    alookup (ps ++ qs) k = alookup qs k := by
  induction ps with
  | nil => rfl
  | cons e rest ih =>
    obtain ⟨ek, ev⟩ := e
    by_cases hk : ek = k
    · simp [alookup, hk] at h
    · simp only [alookup, hk, if_false, List.cons_append] at h ⊢
      exact ih h

lemma alookup_aset_self {α : Type} {ps : List (String × α)} {k : String} {w : α}
    (h : (alookup ps k).isSome) : alookup (aset ps k w) k = some w := by
  induction ps with
  | nil => simp [alookup] at h
  | cons e rest ih =>
    obtain ⟨ek, ev⟩ := e
    by_cases hk : ek = k
    · simp [alookup, aset, hk]
    · simp only [alookup, aset, hk, if_false] at h ⊢
      exact ih h

lemma add_position_lookup_present {pm : PortfolioManager} {X : String} {p0 : Position}
    (hx : alookup pm.positions X = some p0) (q p : ℚ) (t : ℕ) :
    alookup (add_position pm X q p t).positions X =
      some { quantity := p0.quantity + q,
             avg_price := if p0.quantity + q ≠ 0 then
               (p0.quantity * p0.avg_price + q * p) / (p0.quantity + q) else 0,
             market_value := p0.market_value } := by
  unfold add_position
  rw [hx]
  simp only [hx, Option.getD_some]
  exact alookup_aset_self (by simp [hx])

lemma add_position_lookup_absent {pm : PortfolioManager} {X : String}
    (hx : alookup pm.positions X = none) (q p : ℚ) (t : ℕ) :
    alookup (add_position pm X q p t).positions X =
      some { quantity := q, avg_price := if q = 0 then 0 else p, market_value := 0 } := by
  unfold add_position
  rw [hx]
  have h2 : alookup (pm.positions ++ [(X, ⟨0, 0, 0⟩)]) X = some ⟨0, 0, 0⟩ := by
    rw [alookup_append_right hx]; simp [alookup]
  simp only [hx, h2, Option.getD_some]
  rw [alookup_aset_self (by simp [h2])]
  congr 1
  by_cases hq : q = 0
  · simp [hq]
  · field_simp [hq]

/-! ### Claim theorems -/

/-- C1: starting from no position in `X`, two trades `(q1, p1)` then
`(q2, p2)` leave `avg_price = (q1·p1 + q2·p2)/(q1+q2)` when `q1+q2 ≠ 0` and
`avg_price = 0` when `q1+q2 = 0`; and in general one `add_position` on an
existing position `(q0, a0)` sets the average price to the quantity-weighted
average `(q0·a0 + q·p)/(q0+q)` when the new quantity is nonzero and to 0
when it is zero. -/
theorem C1_add_position_weighted_average (pm pmG : PortfolioManager) (X : String)
    (q1 p1 q2 p2 qG pG : ℚ) (t1 t2 tG : ℕ) (p0 : Position)
    (hX : alookup pm.positions X = none)
    (hG : alookup pmG.positions X = some p0) :
    (alookup (add_position (add_position pm X q1 p1 t1) X q2 p2 t2).positions X).map
        Position.avg_price =
      some (if q1 + q2 = 0 then 0 else (q1 * p1 + q2 * p2) / (q1 + q2)) ∧
    (alookup (add_position pmG X qG pG tG).positions X).map Position.avg_price =
      some (if p0.quantity + qG = 0 then 0
        else (p0.quantity * p0.avg_price + qG * pG) / (p0.quantity + qG)) := by
  constructor
  · have h1 := add_position_lookup_absent hX q1 p1 t1
    have h2 := add_position_lookup_present h1 q2 p2 t2
    rw [h2]
    simp only [Option.map_some']
    congr 1
    by_cases h12 : q1 + q2 = 0
    · simp [h12]
    · simp only [h12, if_neg, ite_not, if_false]
      by_cases hq1 : q1 = 0
      · simp [hq1, h12]
      · simp [hq1, h12]
  · rw [add_position_lookup_present hG qG pG tG]
    simp only [Option.map_some']
    congr 1
    by_cases hq : p0.quantity + qG = 0
    · simp [hq]
    · simp [hq]

/-- C1 witness: `add_position("Wheat", 500, 8)` then
`add_position("Wheat", 500, 9)` from an empty book, and a reducing trade
`(-500, 6)` on an existing `(1000, 5)` position. -/
theorem C1_add_position_weighted_average_witness :
    (alookup (add_position (add_position ⟨[], [], []⟩ "Wheat" 500 8 0) "Wheat" 500 9 0).positions
        "Wheat").map Position.avg_price =
      some (if (500 : ℚ) + 500 = 0 then 0 else (500 * 8 + 500 * 9) / (500 + 500)) ∧
    (alookup (add_position ⟨[("Wheat", ⟨1000, 5, 0⟩)], [], []⟩ "Wheat" (-500) 6 0).positions
        "Wheat").map Position.avg_price =
      some (if (1000 : ℚ) + -500 = 0 then 0
        else (1000 * 5 + -500 * 6) / (1000 + -500)) :=
  C1_add_position_weighted_average ⟨[], [], []⟩ ⟨[("Wheat", ⟨1000, 5, 0⟩)], [], []⟩
    "Wheat" 500 8 500 9 (-500) 6 0 0 0 ⟨1000, 5, 0⟩ rfl rfl

/-- C2: when the return frame is `None`/empty or the snapshot's total value
is 0, `generate_risk_report` returns the report whose metric/stress sections
are empty mappings and whose breach/recommendation lists are empty, with the
timestamp set; the embedding is a total function, so no exception escapes in
this case. -/
theorem C2_generate_risk_report_empty (z : ℚ → ℚ) (noise : List ℚ) (cfg : RMConfig)
    (now : ℕ) (returns_data : Option Frame) (positions : List (String × Position))
    (summary : PortfolioSummary)
    (h : returns_data = none ∨ (∃ f, returns_data = some f ∧ dfEmpty f = true) ∨
      summary.total_value = 0) :
    generate_risk_report z noise cfg now returns_data positions summary =
      { timestamp := now, portfolio_metrics := none, individual_metrics := [],
        stress_test_results := [], limit_breaches := [], recommendations := [] } := by
  rcases h with h | ⟨f, hf, hempty⟩ | h
  · subst h; rfl
  · subst hf
    simp [generate_risk_report, hempty]
  · cases returns_data with
    | none => rfl
    | some f =>
      by_cases hf : dfEmpty f
      · simp [generate_risk_report, hf]
      · simp [generate_risk_report, hf, h]

/-- C2 witness: a `None` return frame. -/
theorem C2_generate_risk_report_empty_witness :
    generate_risk_report (fun _ => 0) [] ⟨3, 6/5, [], []⟩ 0 none [] ⟨0, []⟩ =
      { timestamp := 0, portfolio_metrics := none, individual_metrics := [],
        stress_test_results := [], limit_breaches := [], recommendations := [] } :=
  C2_generate_risk_report_empty (fun _ => 0) [] ⟨3, 6/5, [], []⟩ 0 none [] ⟨0, []⟩
    (Or.inl rfl)

/-- C7: `stress_test` with a scenario id outside the fixed table returns a
result identical in every field to `stress_test` with `"2008_crisis"`
(including the reported scenario id). -/
theorem C7_stress_test_unknown_scenario_fallback (returns : List ℚ) (s : String)
    (h : returns ≠ []) (h1 : s ≠ "2008_crisis") (h2 : s ≠ "covid_2020")
    (h3 : s ≠ "ukraine_conflict") :
    stress_test returns s = stress_test returns "2008_crisis" := by
  have hnone : alookup
      [("2008_crisis", ((-0.15 : ℚ), (2.5 : ℚ))), ("covid_2020", (-0.25, 3.0)),
       ("ukraine_conflict", (-0.12, 2.0))] s = none := by
    simp [alookup, Ne.symm h1, Ne.symm h2, Ne.symm h3]
  simp only [stress_test, hnone, Option.isSome_none, Bool.false_eq_true, if_false,
    ite_self]

/-- C7 witness: the unknown id `"invalid_scenario"` on a two-point series. -/
theorem C7_stress_test_unknown_scenario_fallback_witness :
    stress_test [1/10, -1/10] "invalid_scenario" =
      stress_test [1/10, -1/10] "2008_crisis" :=
  C7_stress_test_unknown_scenario_fallback [1/10, -1/10] "invalid_scenario"
    (by simp) (by decide) (by decide) (by decide)

/-- C9: on a non-empty series, a method string other than `'historical'`,
`'parametric'` and `'monte_carlo'` falls through every branch of
`calculate_var` and yields `None`, the same sentinel as the
insufficient-data outcome. -/
theorem C9_calculate_var_unknown_method (z : ℚ → ℚ) (noise : List ℚ)
    (returns : List ℚ) (c : ℚ) (method : String) (h : returns ≠ [])
    (h1 : method ≠ "historical") (h2 : method ≠ "parametric")
    (h3 : method ≠ "monte_carlo") :
    calculate_var z noise returns c method = none := by
  have hlen : ¬ returns.length = 0 := by simpa [List.length_eq_zero] using h
  simp [calculate_var, hlen, h1, h2, h3]

/-- C9 witness: the method string `"simulation"`. -/
theorem C9_calculate_var_unknown_method_witness :
    calculate_var (fun _ => 0) [] [1/100] (95/100) "simulation" = none :=
  C9_calculate_var_unknown_method (fun _ => 0) [] [1/100] (95/100) "simulation"
    (by simp) (by decide) (by decide) (by decide)

lemma calculate_var_historical (z : ℚ → ℚ) (noise : List ℚ) {returns : List ℚ}
    (h : returns ≠ []) (c : ℚ) :
    calculate_var z noise returns c "historical" =
      some (.val (np_percentile returns ((1 - c) * 100))) := by
  have hlen : ¬ returns.length = 0 := by simpa [List.length_eq_zero] using h
  simp [calculate_var, hlen]

lemma expected_shortfall_eq {returns : List ℚ} (h : returns ≠ []) (c : ℚ) :
    calculate_expected_shortfall returns c =
      some (np_mean_pf (returns.filter
        (fun r => r ≤ np_percentile returns ((1 - c) * 100)))) := by
  have hlen : ¬ returns.length = 0 := by simpa [List.length_eq_zero] using h
  simp [calculate_expected_shortfall, hlen]

lemma es_tail_ne_nil {returns : List ℚ} (h : returns ≠ []) {q : ℚ} (h0 : 0 ≤ q)
    (h100 : q ≤ 100) :
    returns.filter (fun r => r ≤ np_percentile returns q) ≠ [] := by
  have hmem := sorted_head_mem h
  have hle := sorted_head_le_np_percentile h h0 h100
  intro hcontra
  have hin : (returns.insertionSort (· ≤ ·)).getD 0 0 ∈
      returns.filter (fun r => r ≤ np_percentile returns q) := by
    rw [List.mem_filter]
    exact ⟨hmem, by simpa using hle⟩
  rw [hcontra] at hin
  exact absurd hin (List.not_mem_nil _)

/-- C3: on a non-empty series with confidence level in (0,1), the expected
shortfall — the mean of the observations at or below the historical VaR, the
threshold included — is at most the historical VaR. -/
theorem C3_expected_shortfall_le_historical_var (z : ℚ → ℚ) (noise : List ℚ)
    (returns : List ℚ) (c : ℚ) (h : returns ≠ []) (hc0 : 0 < c) (hc1 : c < 1) :
    calculate_expected_shortfall returns c =
      some (.val (np_mean (returns.filter
        (fun r => r ≤ np_percentile returns ((1 - c) * 100))))) ∧
    calculate_var z noise returns c "historical" =
      some (.val (np_percentile returns ((1 - c) * 100))) ∧
    np_mean (returns.filter (fun r => r ≤ np_percentile returns ((1 - c) * 100))) ≤
      np_percentile returns ((1 - c) * 100) := by
  have hq0 : 0 ≤ (1 - c) * 100 := by nlinarith
  have hq100 : (1 - c) * 100 ≤ 100 := by nlinarith
  have htail := es_tail_ne_nil h hq0 hq100
  refine ⟨?_, calculate_var_historical z noise h c, ?_⟩
  · rw [expected_shortfall_eq h c]
    have hlen : ¬ (returns.filter
        (fun r => r ≤ np_percentile returns ((1 - c) * 100))).length = 0 := by
      simpa [List.length_eq_zero] using htail
    simp [np_mean_pf, hlen]
  · apply np_mean_le_of_forall_le htail
    intro x hx
    rw [List.mem_filter] at hx
    simpa using hx.2

/-- C3 witness: the three-point series `[1/10, -1/5, 3/100]` at confidence
95%. -/
theorem C3_expected_shortfall_le_historical_var_witness :
    calculate_expected_shortfall [1/10, -1/5, 3/100] (95/100) =
      some (.val (np_mean ([1/10, -1/5, 3/100].filter
        (fun r => r ≤ np_percentile [1/10, -1/5, 3/100] ((1 - 95/100) * 100))))) ∧
    calculate_var (fun _ => 0) [] [1/10, -1/5, 3/100] (95/100) "historical" =
      some (.val (np_percentile [1/10, -1/5, 3/100] ((1 - 95/100) * 100))) ∧
    np_mean ([1/10, -1/5, 3/100].filter
      (fun r => r ≤ np_percentile [1/10, -1/5, 3/100] ((1 - 95/100) * 100))) ≤
      np_percentile [1/10, -1/5, 3/100] ((1 - 95/100) * 100) :=
  C3_expected_shortfall_le_historical_var (fun _ => 0) [] [1/10, -1/5, 3/100]
    (95/100) (by simp) (by norm_num) (by norm_num)

/-- C4: for a fixed non-empty series, the historical VaR is antitone in the
confidence level: `c1 < c2` gives `var(c2) ≤ var(c1)`, by monotonicity of
the empirical percentile in its percentile argument. -/
theorem C4_historical_var_antitone_in_confidence (z : ℚ → ℚ) (noise : List ℚ)
    (returns : List ℚ) (c1 c2 : ℚ) (h : returns ≠ []) (h1 : 0 < c1)
    (h12 : c1 < c2) (h2 : c2 < 1) :
    calculate_var z noise returns c1 "historical" =
      some (.val (np_percentile returns ((1 - c1) * 100))) ∧
    calculate_var z noise returns c2 "historical" =
      some (.val (np_percentile returns ((1 - c2) * 100))) ∧
    np_percentile returns ((1 - c2) * 100) ≤ np_percentile returns ((1 - c1) * 100) := by
  refine ⟨calculate_var_historical z noise h c1, calculate_var_historical z noise h c2, ?_⟩
  apply np_percentile_mono h
  · nlinarith
  · nlinarith
  · nlinarith

/-- C4 witness: confidence levels 95% and 99% on a four-point series. -/
theorem C4_historical_var_antitone_in_confidence_witness :
    calculate_var (fun _ => 0) [] [1/10, -1/5, 3/100, -3/50] (95/100) "historical" =
      some (.val (np_percentile [1/10, -1/5, 3/100, -3/50] ((1 - 95/100) * 100))) ∧
    calculate_var (fun _ => 0) [] [1/10, -1/5, 3/100, -3/50] (99/100) "historical" =
      some (.val (np_percentile [1/10, -1/5, 3/100, -3/50] ((1 - 99/100) * 100))) ∧
    np_percentile [1/10, -1/5, 3/100, -3/50] ((1 - 99/100) * 100) ≤
      np_percentile [1/10, -1/5, 3/100, -3/50] ((1 - 95/100) * 100) :=
  C4_historical_var_antitone_in_confidence (fun _ => 0) [] [1/10, -1/5, 3/100, -3/50]
    (95/100) (99/100) (by simp) (by norm_num) (by norm_num) (by norm_num)

/-- C10: on a non-empty series with confidence level in (0,1), the tail set
`{r ∈ returns : r ≤ historical VaR}` is non-empty (the series minimum always
meets the threshold), so `calculate_expected_shortfall` returns an actual
number, never the empty-mean NaN. -/
theorem C10_expected_shortfall_tail_nonempty (returns : List ℚ) (c : ℚ)
    (h : returns ≠ []) (hc0 : 0 < c) (hc1 : c < 1) :
    returns.filter (fun r => r ≤ np_percentile returns ((1 - c) * 100)) ≠ [] ∧
    calculate_expected_shortfall returns c =
      some (.val (np_mean (returns.filter
        (fun r => r ≤ np_percentile returns ((1 - c) * 100))))) := by
  have hq0 : 0 ≤ (1 - c) * 100 := by nlinarith
  have hq100 : (1 - c) * 100 ≤ 100 := by nlinarith
  have htail := es_tail_ne_nil h hq0 hq100
  refine ⟨htail, ?_⟩
  rw [expected_shortfall_eq h c]
  have hlen : ¬ (returns.filter
      (fun r => r ≤ np_percentile returns ((1 - c) * 100))).length = 0 := by
    simpa [List.length_eq_zero] using htail
  simp [np_mean_pf, hlen]

/-- C10 witness: the two-point series `[-1/20, 1/20]` at confidence 99%. -/
theorem C10_expected_shortfall_tail_nonempty_witness :
    [-1/20, 1/20].filter
      (fun r => r ≤ np_percentile [-1/20, 1/20] ((1 - 99/100) * 100)) ≠ [] ∧
    calculate_expected_shortfall [-1/20, 1/20] (99/100) =
      some (.val (np_mean ([-1/20, 1/20].filter
        (fun r => r ≤ np_percentile [-1/20, 1/20] ((1 - 99/100) * 100))))) :=
  C10_expected_shortfall_tail_nonempty [-1/20, 1/20] (99/100) (by simp)
    (by norm_num) (by norm_num)

lemma np_percentile_replicate {k : ℕ} (hk : 0 < k) (x : ℚ) {q : ℚ} (h0 : 0 ≤ q)
    (h100 : q ≤ 100) : np_percentile (List.replicate k x) q = x := by
  have hsort : (List.replicate k x).insertionSort (· ≤ ·) = List.replicate k x := by
    apply List.eq_replicate.mpr
    refine ⟨by rw [insertionSort_len, List.length_replicate], ?_⟩
    intro b hb
    exact List.eq_of_mem_replicate ((List.mem_insertionSort _).mp hb)
  have hlen : (List.replicate k x).length = k := List.length_replicate ..
  unfold np_percentile
  rw [hsort, hlen]
  obtain ⟨hh0, hhle⟩ := pct_h_bounds hk h0 h100
  obtain ⟨hi_le, hle_i1, hi_n⟩ := pct_idx_facts hk hh0 hhle
  have hgd : ∀ j : ℕ, j < k → (List.replicate k x).getD j 0 = x := by
    intro j hj
    rw [List.getD_eq_getElem _ 0 (by simpa using hj)]
    exact List.getElem_replicate ..
  have hi_lt : (Int.floor (q / 100 * ((k : ℚ) - 1))).toNat < k :=
    lt_of_le_of_lt hi_n (Nat.sub_lt hk one_pos)
  have hj_lt : min ((Int.floor (q / 100 * ((k : ℚ) - 1))).toNat + 1) (k - 1) < k :=
    lt_of_le_of_lt (min_le_right _ _) (Nat.sub_lt hk one_pos)
  simp only [pct_interp]
  rw [hgd _ hi_lt, hgd _ hj_lt]
  ring

lemma np_std_singleton (x : ℚ) : np_std [x] = 0 := by
  simp [np_std, np_var, np_mean, ratSqrt]

/-- C6 (amended): on a single-element series with confidence level in (0,1),
the historical and Monte-Carlo methods return the element unchanged (the
Monte-Carlo sample is the constant `mu` because the sample deviation is 0),
while the parametric method returns NaN — scipy's `norm.ppf` with scale
`np.std([x]) = 0` — not the element. -/
theorem C6_single_element_var (z : ℚ → ℚ) (noise : List ℚ) (x c : ℚ)
    (hc0 : 0 < c) (hc1 : c < 1) (hnoise : noise.length = 10000) :
    calculate_var z noise [x] c "historical" = some (.val x) ∧
    calculate_var z noise [x] c "monte_carlo" = some (.val x) ∧
    calculate_var z noise [x] c "parametric" = some PyFloat.nan := by
  have hq0 : 0 ≤ (1 - c) * 100 := by nlinarith
  have hq100 : (1 - c) * 100 ≤ 100 := by nlinarith
  refine ⟨?_, ?_, ?_⟩
  · rw [calculate_var_historical z noise (by simp) c]
    have : np_percentile [x] ((1 - c) * 100) = x := by
      have := np_percentile_replicate (k := 1) one_pos x hq0 hq100
      simpa using this
    rw [this]
  · have hmap : noise.map (fun t => np_mean [x] + np_std [x] * t) =
        List.replicate 10000 (np_mean [x]) := by
      rw [np_std_singleton]
      have : (fun t : ℚ => np_mean [x] + 0 * t) = fun _ : ℚ => np_mean [x] := by
        funext t; ring
      rw [this, List.map_const', hnoise]
    have hmean : np_mean [x] = x := by simp [np_mean]
    simp only [calculate_var]
    norm_num
    rw [hmap, hmean, np_percentile_replicate (by norm_num) x hq0 hq100]
    rw [if_neg (by decide : ¬ ("monte_carlo" = "historical")),
      if_neg (by decide : ¬ ("monte_carlo" = "parametric"))]
  · have hstd := np_std_singleton x
    simp [calculate_var, scipy_norm_ppf, hstd]

/-- C6 witness: the series `[1/100]` at confidence 95% with a 10000-draw
noise list. -/
theorem C6_single_element_var_witness :
    calculate_var (fun _ => 0) (List.replicate 10000 0) [1/100] (95/100) "historical" =
      some (.val (1/100)) ∧
    calculate_var (fun _ => 0) (List.replicate 10000 0) [1/100] (95/100) "monte_carlo" =
      some (.val (1/100)) ∧
    calculate_var (fun _ => 0) (List.replicate 10000 0) [1/100] (95/100) "parametric" =
      some PyFloat.nan :=
  C6_single_element_var (fun _ => 0) (List.replicate 10000 0) (1/100) (95/100)
    (by norm_num) (by norm_num) (List.length_replicate ..)

/-- C6 counterexample: the claim includes the parametric method, but on
`[1/100]` the parametric branch returns NaN (scipy's `norm.ppf` with scale
0), not the element `1/100`. -/
theorem C6_single_element_var_counterexample :
    calculate_var (fun _ => 0) (List.replicate 10000 0) [1/100] (95/100) "parametric" =
      some PyFloat.nan ∧
    some PyFloat.nan ≠ some (PyFloat.val (1/100)) := by
  constructor
  · simp [calculate_var, scipy_norm_ppf, np_std_singleton]
  · simp

lemma seriesAddWeighted_getD {acc col : List (Option ℚ)} {m : ℕ} (ha : acc.length = m)
    (hc : col.length = m) {k : ℕ} (hk : k < m) (w : ℚ) :
    (seriesAddWeighted acc col w).length = m ∧
    (seriesAddWeighted acc col w).getD k none =
      match acc.getD k none, col.getD k none with
      | some a, some cv => some (a + cv * w)
      | _, _ => none := by
  have hlen : (seriesAddWeighted acc col w).length = m := by
    simp [seriesAddWeighted, ha, hc]
  refine ⟨hlen, ?_⟩
  have hk1 : k < (seriesAddWeighted acc col w).length := by rw [hlen]; exact hk
  have hka : k < acc.length := by rw [ha]; exact hk
  have hkc : k < col.length := by rw [hc]; exact hk
  rw [List.getD_eq_getElem _ _ hk1, List.getD_eq_getElem _ _ hka,
    List.getD_eq_getElem _ _ hkc]
  simp [seriesAddWeighted, List.getElem_zipWith]

lemma wpr_foldl_entry (weights : List (String × ℚ))
    (cols : List (String × List (Option ℚ))) (m k : ℕ) (hk : k < m) :
    ∀ acc : List (Option ℚ), acc.length = m → (∀ c ∈ cols, c.2.length = m) →
    (cols.foldl (wprStep weights) acc).length = m ∧
    (cols.foldl (wprStep weights) acc).getD k none =
      (match acc.getD k none with
       | some a =>
         if cols.all (fun c => !colContributes weights c || (c.2.getD k none).isSome) then
           some (a + (cols.map (fun c => if colContributes weights c then
             (c.2.getD k none).getD 0 * ((alookup weights c.1).getD 0) else 0)).sum)
         else none
       | none => none) := by
  induction cols with
  | nil =>
    intro acc hacc _
    refine ⟨hacc, ?_⟩
    rw [List.foldl_nil]
    cases hek : acc.getD k none <;> simp
  | cons c rest ih =>
    intro acc hacc hcols
    have hc_len : c.2.length = m := hcols c (List.mem_cons_self ..)
    have hrest : ∀ d ∈ rest, d.2.length = m := fun d hd => hcols d (List.mem_cons_of_mem _ hd)
    rw [List.foldl_cons]
    by_cases hcontrib : colContributes weights c
    · obtain ⟨w, hw, hwpos⟩ : ∃ w, alookup weights c.1 = some w ∧ w > 0 := by
        unfold colContributes at hcontrib
        cases hlk : alookup weights c.1 with
        | none => rw [hlk] at hcontrib; simp at hcontrib
        | some w =>
          rw [hlk] at hcontrib
          simp only [decide_eq_true_eq] at hcontrib
          exact ⟨w, rfl, hcontrib⟩
      have hstep : wprStep weights acc c = seriesAddWeighted acc c.2 w := by
        simp [wprStep, hw, hwpos]
      rw [hstep]
      obtain ⟨hlen2, hget2⟩ := seriesAddWeighted_getD hacc hc_len hk w
      obtain ⟨hlenr, hgetr⟩ := ih (seriesAddWeighted acc c.2 w) hlen2 hrest
      refine ⟨hlenr, ?_⟩
      rw [hgetr, hget2]
      cases hak : acc.getD k none with
      | none => rfl
      | some a =>
        cases hck : c.2.getD k none with
        | none =>
          simp only [List.all_cons, hck, hcontrib, Option.isSome_none, Bool.not_true,
            Bool.false_or, Bool.false_and, Bool.false_eq_true, if_false]
        | some cv =>
          simp only [List.all_cons, List.map_cons, List.sum_cons, hck, hcontrib, hw,
            Option.isSome_some, Bool.not_true, Bool.false_or, Bool.true_and,
            if_true, Option.getD_some]
          split
          · rw [add_assoc]
          · rfl
    · have hcf : colContributes weights c = false := by simpa using hcontrib
      have hstep : wprStep weights acc c = acc := by
        unfold wprStep
        unfold colContributes at hcf
        cases hlk : alookup weights c.1 with
        | none => simp
        | some w =>
          rw [hlk] at hcf
          simp only [decide_eq_false_iff_not] at hcf
          simp [hcf]
      rw [hstep]
      obtain ⟨hlenr, hgetr⟩ := ih acc hacc hrest
      refine ⟨hlenr, ?_⟩
      rw [hgetr]
      cases hak : acc.getD k none with
      | none => rfl
      | some a =>
        simp only [List.all_cons, List.map_cons, List.sum_cons, hcf, Bool.not_false,
          Bool.true_or, Bool.true_and, Bool.false_eq_true, if_false, zero_add]

lemma init_acc_getD (idx : List ℕ) (k : ℕ) (hk : k < idx.length) :
    (idx.map (fun _ => some (0 : ℚ))).getD k none = some 0 := by
  rw [List.getD_eq_getElem _ _ (by simpa using hk)]
  simp

/-- C5 (amended): for every date position `k` of a well-formed frame, the
aggregated series has length equal to the index and its entry at `k` is:
the sum over contributing commodities (weight > 0) of return × weight when
every contributing commodity has a non-missing return at `k`; and NaN
(`none`) as soon as one contributing commodity's return is missing at `k` —
a missing return invalidates the date's entry instead of contributing 0. -/
theorem C5_weighted_portfolio_returns_entry (weights : List (String × ℚ)) (f : Frame)
    (k : ℕ) (hwf : ∀ c ∈ f.cols, c.2.length = f.index.length)
    (hk : k < f.index.length) :
    (weighted_portfolio_returns weights f).length = f.index.length ∧
    (weighted_portfolio_returns weights f).getD k none =
      (if f.cols.all (fun c => !colContributes weights c || (c.2.getD k none).isSome) then
        some ((f.cols.map (fun c => if colContributes weights c then
          (c.2.getD k none).getD 0 * ((alookup weights c.1).getD 0) else 0)).sum)
      else none) := by
  have hinit : (f.index.map (fun _ => some (0 : ℚ))).length = f.index.length := by simp
  obtain ⟨hlen, hget⟩ := wpr_foldl_entry weights f.cols f.index.length k hk
    (f.index.map (fun _ => some (0 : ℚ))) hinit hwf
  refine ⟨hlen, ?_⟩
  rw [weighted_portfolio_returns, hget, init_acc_getD f.index k hk]
  simp

/-- C5 witness: a one-date frame with a single commodity of weight 1/2. -/
theorem C5_weighted_portfolio_returns_entry_witness :
    (weighted_portfolio_returns [("A", 1/2)] ⟨[7], [("A", [some (1/10)])]⟩).length =
      (⟨[7], [("A", [some (1/10)])]⟩ : Frame).index.length ∧
    (weighted_portfolio_returns [("A", 1/2)] ⟨[7], [("A", [some (1/10)])]⟩).getD 0 none =
      (if (⟨[7], [("A", [some (1/10)])]⟩ : Frame).cols.all
          (fun c => !colContributes [("A", 1/2)] c || (c.2.getD 0 none).isSome) then
        some (((⟨[7], [("A", [some (1/10)])]⟩ : Frame).cols.map
          (fun c => if colContributes [("A", 1/2)] c then
            (c.2.getD 0 none).getD 0 * ((alookup [("A", 1/2)] c.1).getD 0) else 0)).sum)
      else none) :=
  C5_weighted_portfolio_returns_entry [("A", 1/2)] ⟨[7], [("A", [some (1/10)])]⟩ 0
    (by intro c hc; rw [List.mem_singleton] at hc; subst hc; rfl) (by norm_num)

/-- C5 counterexample: with weight 1/2 on commodity `"A"` and a NaN return
on the second date, the aggregated entry for that date is NaN (dropped
downstream), not the 0 the claim's missing-contributes-0 reading predicts. -/
theorem C5_weighted_portfolio_returns_entry_counterexample :
    weighted_portfolio_returns [("A", 1/2)] ⟨[0, 1], [("A", [some (1/10), none])]⟩ =
      [some (1/20), none] ∧ (none : Option ℚ) ≠ some 0 := by
  constructor
  · norm_num [weighted_portfolio_returns, wprStep, seriesAddWeighted, alookup,
      List.zipWith]
  · simp

/-- C8 (amended): every breach emitted by `check_position_limits` has
severity HIGH, and for any commodity in the positions mapping its HIGH
breach record is emitted exactly when its absolute market value in millions
exceeds `POSITION_LIMITS.get(commodity, 0)`.  With no configured limit the
default limit is 0, so a breach appears exactly for nonzero market value; a
position with nonzero quantity but zero (never refreshed) market value does
not breach, contrary to the claim's quantity-based reading. -/
theorem C8_check_position_limits (cfg : RMConfig) (positions : List (String × Position))
    (c : String) (p : Position) (hmem : (c, p) ∈ positions) :
    ((check_position_limits cfg positions).all (fun b => b.severity = "HIGH")) = true ∧
    (position_limit_breach ((alookup cfg.POSITION_LIMITS c).getD 0) c p ∈
        check_position_limits cfg positions ↔
      |p.market_value| / 1000000 > (alookup cfg.POSITION_LIMITS c).getD 0) := by
  constructor
  · rw [List.all_eq_true]
    intro b hb
    simp only [check_position_limits, List.mem_filterMap] at hb
    obtain ⟨cp, hcp, heq⟩ := hb
    split at heq
    · cases heq
      simp [position_limit_breach]
    · exact absurd heq (by simp)
  · constructor
    · intro hmem2
      simp only [check_position_limits, List.mem_filterMap] at hmem2
      obtain ⟨cp, hcp, heq⟩ := hmem2
      split at heq
      case isTrue hcond =>
        simp only [position_limit_breach, Option.some.injEq, Breach.mk.injEq,
          PyFloat.val.injEq] at heq
        obtain ⟨htype, hcur, hlim, hsev⟩ := heq
        rw [← hcur, ← hlim]
        exact hcond
      case isFalse hcond => exact absurd heq (by simp)
    · intro hcond
      simp only [check_position_limits, List.mem_filterMap]
      exact ⟨(c, p), hmem, by rw [if_pos hcond]⟩

/-- C8 witness: a position whose $3000M market value exceeds its configured
$1M limit. -/
theorem C8_check_position_limits_witness :
    ((check_position_limits ⟨3, 6/5, [("Gold", 1)], []⟩
        [("Gold", ⟨2, 10, 3000000000⟩)]).all (fun b => b.severity = "HIGH")) = true ∧
    (position_limit_breach
        ((alookup (RMConfig.POSITION_LIMITS ⟨3, 6/5, [("Gold", 1)], []⟩) "Gold").getD 0)
        "Gold" ⟨2, 10, 3000000000⟩ ∈
        check_position_limits ⟨3, 6/5, [("Gold", 1)], []⟩
          [("Gold", ⟨2, 10, 3000000000⟩)] ↔
      |(⟨2, 10, 3000000000⟩ : Position).market_value| / 1000000 >
        (alookup (RMConfig.POSITION_LIMITS ⟨3, 6/5, [("Gold", 1)], []⟩) "Gold").getD 0) :=
  C8_check_position_limits ⟨3, 6/5, [("Gold", 1)], []⟩ [("Gold", ⟨2, 10, 3000000000⟩)]
    "Gold" ⟨2, 10, 3000000000⟩ (List.mem_singleton.mpr rfl)

/-- C8 counterexample: a position with nonzero quantity, no configured
limit, and stale zero market value produces no breach, though the claim
says every position with nonzero quantity breaches in that case. -/
theorem C8_check_position_limits_counterexample :
    check_position_limits ⟨3, 6/5, [], ["2008_crisis"]⟩ [("Gold", ⟨100, 5, 0⟩)] = [] ∧
    (⟨100, 5, 0⟩ : Position).quantity ≠ 0 := by
  constructor
  · norm_num [check_position_limits, alookup]
  · norm_num

